import Mathlib

/-!
Shallow embedding of the multi-agent review engine
(scripts/multi_agent_review), centred on the consensus module
(`consensus.py`), the agent failure-containment paths
(`agents/security_auditor.py`) and the conversation-log serialization
(`conversation.py`).

Modelling conventions:
* Python floats are modelled as rationals (`ℚ`); all arithmetic in the
  consensus module is sums, products and divisions of confidences and
  role weights, so the rational model is exact.
* Python dicts keyed by agent name are modelled as association lists in
  insertion order.  The dict comprehensions of `consensus.py` line 90/91
  (`{v.agent_name: v.verdict for v in self.votes}`) coincide with a plain
  `List.map` whenever the agent names in the ledger are pairwise distinct,
  which `add_vote` guarantees (it removes the previous vote of the same
  agent before appending); theorems carry this `Nodup` hypothesis.
* Python string formatting `{x:.0%}` and `{x:.2f}` is modelled by
  round-half-even formatting of the rational value.
-/

/-- Verdict enum of `agents/base.py` lines 10-15. -/
inductive ReviewVerdict where
  | APPROVE
  | REJECT
  | NEEDS_DISCUSSION
deriving DecidableEq, Repr

/-- The `.value` string of each `ReviewVerdict` member. -/
def ReviewVerdict.value : ReviewVerdict → String
  | .APPROVE => "APPROVE"
  | .REJECT => "REJECT"
  | .NEEDS_DISCUSSION => "NEEDS_DISCUSSION"

instance : Inhabited ReviewVerdict := ⟨.NEEDS_DISCUSSION⟩

/-- Consensus method enum of `consensus.py` lines 9-13. -/
inductive ConsensusMethod where
  | MAJORITY
  | UNANIMOUS
  | WEIGHTED
  | SECURITY_VETO
deriving DecidableEq, Repr

/-- The `.value` string of each `ConsensusMethod` member. -/
def ConsensusMethod.value : ConsensusMethod → String
  | .MAJORITY => "majority"
  | .UNANIMOUS => "unanimous"
  | .WEIGHTED => "weighted"
  | .SECURITY_VETO => "security_veto"

/-- A single agent vote, `consensus.py` lines 16-23. -/
structure AgentVote where
  agent_name : String
  verdict : ReviewVerdict
  confidence : ℚ
  role_weight : ℚ := 1
  rationale : String := ""
deriving DecidableEq, Repr

instance : Inhabited AgentVote :=
  ⟨{ agent_name := "", verdict := .NEEDS_DISCUSSION, confidence := 0 }⟩

/-- Final consensus decision, `consensus.py` lines 26-36.
`vote_breakdown` and `confidence_scores` are Python dicts in insertion
order, modelled as association lists. -/
structure ConsensusResult where
  final_verdict : ReviewVerdict
  consensus_reached : Bool
  vote_breakdown : List (String × ReviewVerdict)
  confidence_scores : List (String × ℚ)
  total_confidence : ℚ
  rounds_taken : ℕ
  dissenting_opinions : List String
  summary : String
deriving DecidableEq, Repr

/-- Mutable state of `ConsensusManager`, `consensus.py` lines 49-53. -/
structure ConsensusManager where
  method : ConsensusMethod
  votes : List AgentVote
  rounds : ℕ
  max_rounds : ℕ := 3
deriving DecidableEq, Repr

/-- The static `ROLE_WEIGHTS` table with its `.get(name, 1.0)` default,
`consensus.py` lines 43-47 and 66. -/
def ROLE_WEIGHTS_get (agent_name : String) : ℚ :=
  if agent_name = "SecurityAuditor" then 3/2
  else if agent_name = "RuleComplianceVerifier" then 13/10
  else if agent_name = "CodeQualityReviewer" then 1
  else 1

/-- `add_vote`, `consensus.py` lines 55-74: drop any previous vote of the
same agent, then append the fresh vote with the static role weight. -/
def ConsensusManager.add_vote (m : ConsensusManager) (agent_name : String)
    (verdict : ReviewVerdict) (confidence : ℚ) (rationale : String := "") :
    ConsensusManager :=
  let votes := m.votes.filter (fun v => v.agent_name ≠ agent_name)
  let role_weight := ROLE_WEIGHTS_get agent_name
  let fresh : AgentVote :=
    { agent_name := agent_name, verdict := verdict,
      confidence := confidence, role_weight := role_weight,
      rationale := rationale }
  { m with votes := votes ++ [fresh] }

/-- The dict comprehension of `consensus.py` line 90, on ledgers whose agent
names are pairwise distinct (the `add_vote` invariant). -/
def ConsensusManager.vote_breakdown_list (m : ConsensusManager) :
    List (String × ReviewVerdict) :=
  m.votes.map (fun v => (v.agent_name, v.verdict))

/-- The dict comprehension of `consensus.py` line 91. -/
def ConsensusManager.confidence_scores_list (m : ConsensusManager) :
    List (String × ℚ) :=
  m.votes.map (fun v => (v.agent_name, v.confidence))

/-- Round-half-even integer rounding, the rounding mode of Python number
formatting, used to model `{x:.0%}` and `{x:.2f}`. -/
def roundHalfEven (q : ℚ) : ℤ :=
  let f : ℤ := ⌊q⌋
  let r : ℚ := q - (f : ℚ)
  if r < 1/2 then f
  else if r > 1/2 then f + 1
  else if f % 2 = 0 then f else f + 1

/-- Model of the Python format `{q:.0%}` (percent, no decimals). -/
def formatPercent0 (q : ℚ) : String :=
  toString (roundHalfEven (q * 100)) ++ "%"

/-- Model of the Python format `{q:.2f}` (fixed point, two decimals). -/
def formatFixed2 (q : ℚ) : String :=
  let n : ℤ := roundHalfEven (q * 100)
  let sign : String := if n < 0 then "-" else ""
  let m : ℕ := n.natAbs
  let ip : ℕ := m / 100
  let fp : ℕ := m % 100
  let fps : String := if fp < 10 then "0" ++ toString fp else toString fp
  sign ++ toString ip ++ "." ++ fps

/-- The emoji table of `consensus.py` lines 284-288. -/
def verdict_emoji : ReviewVerdict → String
  | .APPROVE => "✅"
  | .REJECT => "❌"
  | .NEEDS_DISCUSSION => "🤔"

/-- `_generate_summary`, `consensus.py` lines 277-304.  The per-agent
confidence lookup of line 301 (`next(i for i, v in enumerate(self.votes) if
v.agent_name == agent)`, guarded by `if self.votes else 0`) is modelled by
`List.find?` with default 0; every breakdown key names a vote in the
ledger at each internal call site, so the default branch mirrors the
guard, never a missing key. -/
def ConsensusManager.generate_summary (m : ConsensusManager)
    (final_verdict : ReviewVerdict)
    (vote_breakdown : List (String × ReviewVerdict))
    (consensus_reached : Bool) : String :=
  let header : List String := [
    "## Consensus Decision: " ++ verdict_emoji final_verdict ++ " " ++
      final_verdict.value,
    "",
    "**Consensus Reached:** " ++ (if consensus_reached then "Yes" else "No"),
    "**Rounds:** " ++ toString m.rounds,
    "**Method:** " ++ m.method.value,
    "",
    "### Vote Breakdown:"]
  let rows : List String := vote_breakdown.map (fun p =>
    let conf : ℚ := match m.votes.find? (fun v => v.agent_name = p.1) with
      | some v => v.confidence
      | none => 0
    "- **" ++ p.1 ++ "**: " ++ verdict_emoji p.2 ++ " " ++ p.2.value ++
      " (confidence: " ++ formatPercent0 conf ++ ")")
  String.intercalate "\n" (header ++ rows)

/-- The verdict-count loop of `consensus.py` lines 110-117: how many votes
in the breakdown carry verdict `u`. -/
def verdict_count (vote_breakdown : List (String × ReviewVerdict))
    (u : ReviewVerdict) : ℕ :=
  (vote_breakdown.map Prod.snd).count u

/-- The winner-search loop of `consensus.py` lines 126-130: iterate the
`verdict_counts` dict in its insertion order (APPROVE, REJECT,
NEEDS_DISCUSSION, lines 110-114) and stop at the first verdict whose count
reaches the threshold. -/
def majority_pick (counts : ReviewVerdict → ℕ) (majority_needed : ℕ) :
    Option ReviewVerdict :=
  if counts .APPROVE ≥ majority_needed then some .APPROVE
  else if counts .REJECT ≥ majority_needed then some .REJECT
  else if counts .NEEDS_DISCUSSION ≥ majority_needed then
    some .NEEDS_DISCUSSION
  else none

/-- `_majority_consensus`, `consensus.py` lines 104-154. -/
def ConsensusManager.majority_consensus (m : ConsensusManager)
    (vote_breakdown : List (String × ReviewVerdict))
    (confidence_scores : List (String × ℚ)) : ConsensusResult :=
  let counts : ReviewVerdict → ℕ := verdict_count vote_breakdown
  let total : ℕ := vote_breakdown.length
  let majority_needed : ℕ := total / 2 + 1
  let pick : Option ReviewVerdict := majority_pick counts majority_needed
  let final_verdict : ReviewVerdict := pick.getD .NEEDS_DISCUSSION
  let consensus_reached : Bool := pick.isSome
  let agreeing : List AgentVote :=
    m.votes.filter (fun v => v.verdict = final_verdict)
  let total_confidence : ℚ :=
    if agreeing ≠ [] then
      (agreeing.map AgentVote.confidence).sum / (agreeing.length : ℚ)
    else 0
  let dissenting : List String :=
    (m.votes.filter (fun v => v.verdict ≠ final_verdict)).map (fun v =>
      v.agent_name ++ ": " ++ v.verdict.value ++ " (" ++
        v.rationale.take 100 ++ "...)")
  let summary : String :=
    m.generate_summary final_verdict vote_breakdown consensus_reached
  { final_verdict := final_verdict,
    consensus_reached := consensus_reached,
    vote_breakdown := vote_breakdown,
    confidence_scores := confidence_scores,
    total_confidence := total_confidence,
    rounds_taken := m.rounds,
    dissenting_opinions := dissenting,
    summary := summary }

/-- `_unanimous_consensus`, `consensus.py` lines 156-191.  `verdicts[0]` of
line 168 is modelled by `headI` (the call site guarantees a non-empty
ledger). -/
def ConsensusManager.unanimous_consensus (m : ConsensusManager)
    (vote_breakdown : List (String × ReviewVerdict))
    (confidence_scores : List (String × ℚ)) : ConsensusResult :=
  let verdicts : List ReviewVerdict := vote_breakdown.map Prod.snd
  let unique_verdicts : List ReviewVerdict := verdicts.dedup
  let consensus_reached : Bool := unique_verdicts.length = 1
  let final_verdict : ReviewVerdict :=
    if consensus_reached then verdicts.headI else .NEEDS_DISCUSSION
  let total_confidence : ℚ :=
    if consensus_reached then
      (confidence_scores.map Prod.snd).sum / (confidence_scores.length : ℚ)
    else 1/2
  let dissenting : List String :=
    if consensus_reached then []
    else vote_breakdown.map (fun p => p.1 ++ ": " ++ p.2.value)
  let summary : String :=
    m.generate_summary final_verdict vote_breakdown consensus_reached
  { final_verdict := final_verdict,
    consensus_reached := consensus_reached,
    vote_breakdown := vote_breakdown,
    confidence_scores := confidence_scores,
    total_confidence := total_confidence,
    rounds_taken := m.rounds,
    dissenting_opinions := dissenting,
    summary := summary }

/-- The accumulation loop of `consensus.py` lines 205-210, total part:
`total_weight` is the sum of `confidence * role_weight` over the ledger. -/
def total_weight (votes : List AgentVote) : ℚ :=
  (votes.map (fun v => v.confidence * v.role_weight)).sum

/-- The accumulation loop of `consensus.py` lines 205-210, per-verdict part:
the un-normalized weighted score of verdict `u`. -/
def raw_score (votes : List AgentVote) (u : ReviewVerdict) : ℚ :=
  ((votes.filter (fun v => v.verdict = u)).map
    (fun v => v.confidence * v.role_weight)).sum

/-- The `weighted_scores` dict after the normalization step of
`consensus.py` lines 212-215. -/
def weighted_scores_of (votes : List AgentVote) (u : ReviewVerdict) : ℚ :=
  if total_weight votes > 0 then raw_score votes u / total_weight votes
  else raw_score votes u

/-- `max(weighted_scores, key=weighted_scores.get)` of `consensus.py`
line 218: Python `max` scans the dict keys in insertion order (APPROVE,
REJECT, NEEDS_DISCUSSION, lines 199-203) and replaces the current best only
on a strictly greater score, so the first key of a maximal score wins. -/
def py_max_verdict (score : ReviewVerdict → ℚ) : ReviewVerdict :=
  let best0 : ReviewVerdict := .APPROVE
  let best1 : ReviewVerdict :=
    if score .REJECT > score best0 then .REJECT else best0
  if score .NEEDS_DISCUSSION > score best1 then .NEEDS_DISCUSSION else best1

/-- `_weighted_consensus`, `consensus.py` lines 193-242. -/
def ConsensusManager.weighted_consensus (m : ConsensusManager)
    (vote_breakdown : List (String × ReviewVerdict))
    (confidence_scores : List (String × ℚ)) : ConsensusResult :=
  let weighted_scores : ReviewVerdict → ℚ := weighted_scores_of m.votes
  let final_verdict : ReviewVerdict := py_max_verdict weighted_scores
  let winning_score : ℚ := weighted_scores final_verdict
  let consensus_reached : Bool := winning_score > 1/2
  let dissenting : List String :=
    (m.votes.filter (fun v => v.verdict ≠ final_verdict)).map (fun v =>
      v.agent_name ++ ": " ++ v.verdict.value ++ " (weight: " ++
        formatFixed2 (v.confidence * v.role_weight) ++ ")")
  let summary : String :=
    m.generate_summary final_verdict vote_breakdown consensus_reached ++
      "\nWeighted scores: APPROVE=" ++
      formatFixed2 (weighted_scores .APPROVE) ++ ", REJECT=" ++
      formatFixed2 (weighted_scores .REJECT)
  { final_verdict := final_verdict,
    consensus_reached := consensus_reached,
    vote_breakdown := vote_breakdown,
    confidence_scores := confidence_scores,
    total_confidence := winning_score,
    rounds_taken := m.rounds,
    dissenting_opinions := dissenting,
    summary := summary }

/-- `_security_veto_consensus`, `consensus.py` lines 244-275.  The
first-match loop of lines 251-255 is `List.find?`; the veto fires only on a
REJECT with confidence at least 0.7 (lines 258-259), otherwise the method
falls through to `_weighted_consensus` (line 275).  The Python
`rationale or default` of line 271 treats the empty string as falsy. -/
def ConsensusManager.security_veto_consensus (m : ConsensusManager)
    (vote_breakdown : List (String × ReviewVerdict))
    (confidence_scores : List (String × ℚ)) : ConsensusResult :=
  let security_vote : Option AgentVote :=
    m.votes.find? (fun v => v.agent_name = "SecurityAuditor")
  match security_vote with
  | some sv =>
    if sv.verdict = .REJECT ∧ sv.confidence ≥ 7/10 then
      { final_verdict := .REJECT,
        consensus_reached := true,
        vote_breakdown := vote_breakdown,
        confidence_scores := confidence_scores,
        total_confidence := sv.confidence,
        rounds_taken := m.rounds,
        dissenting_opinions :=
          (m.votes.filter (fun v => v.verdict ≠ .REJECT)).map (fun v =>
            v.agent_name ++ ": " ++ v.verdict.value),
        summary := "SECURITY VETO: " ++
          (if sv.rationale = "" then "Security concerns identified"
           else sv.rationale) }
    else m.weighted_consensus vote_breakdown confidence_scores
  | none => m.weighted_consensus vote_breakdown confidence_scores

/-- The empty-ledger result of `consensus.py` lines 78-88. -/
def empty_consensus_result (rounds : ℕ) : ConsensusResult :=
  { final_verdict := .NEEDS_DISCUSSION,
    consensus_reached := false,
    vote_breakdown := [],
    confidence_scores := [],
    total_confidence := 0,
    rounds_taken := rounds,
    dissenting_opinions := [],
    summary := "No votes received" }

/-- `calculate_consensus`, `consensus.py` lines 76-102.  The `if`/`elif`
chain of lines 93-100 ends with an unconditional fall-through to
`_majority_consensus` (line 102) for a method matching none of the four
enum members. -/
def ConsensusManager.calculate_consensus (m : ConsensusManager) :
    ConsensusResult :=
  if m.votes = [] then empty_consensus_result m.rounds
  else
    let vote_breakdown := m.vote_breakdown_list
    let confidence_scores := m.confidence_scores_list
    if m.method = .MAJORITY then
      m.majority_consensus vote_breakdown confidence_scores
    else if m.method = .UNANIMOUS then
      m.unanimous_consensus vote_breakdown confidence_scores
    else if m.method = .WEIGHTED then
      m.weighted_consensus vote_breakdown confidence_scores
    else if m.method = .SECURITY_VETO then
      m.security_veto_consensus vote_breakdown confidence_scores
    else
      m.majority_consensus vote_breakdown confidence_scores

/-- `increment_round`, `consensus.py` lines 306-308. -/
def ConsensusManager.increment_round (m : ConsensusManager) :
    ConsensusManager :=
  { m with rounds := m.rounds + 1 }

/-- `should_continue`, `consensus.py` lines 310-316. -/
def ConsensusManager.should_continue (m : ConsensusManager) : Bool :=
  if m.rounds ≥ m.max_rounds then false
  else !(m.calculate_consensus).consensus_reached

/-- `reset`, `consensus.py` lines 318-321. -/
def ConsensusManager.reset (m : ConsensusManager) : ConsensusManager :=
  { m with votes := [], rounds := 0 }

/-- A review message, `agents/base.py` lines 18-26.  The `timestamp` float
(wall-clock `time.time()` captured by the dataclass default factory) is
passed explicitly as `now` where messages are created. -/
structure ReviewMessage where
  agent_name : String
  content : String
  verdict : Option ReviewVerdict := none
  timestamp : ℚ := 0
  in_reply_to : Option String := none
deriving DecidableEq, Repr

/-- A code analysis, `agents/base.py` lines 29-37. -/
structure CodeAnalysis where
  issues : List String := []
  warnings : List String := []
  positives : List String := []
  verdict : ReviewVerdict := .NEEDS_DISCUSSION
  confidence : ℚ := 1/2
deriving DecidableEq, Repr

/-- The `_create_message` helper of `agents/base.py` lines 101-123, for the
SecurityAuditor (whose `self.name` is the string "SecurityAuditor",
`agents/security_auditor.py` line 20), with the construction-time clock
passed explicitly as `now`. -/
def create_security_message (now : ℚ) (content : String)
    (verdict : Option ReviewVerdict) (in_reply_to : Option String) :
    ReviewMessage :=
  { agent_name := "SecurityAuditor", content := content, verdict := verdict,
    timestamp := now, in_reply_to := in_reply_to }

/-- Python substring membership `sub in s`. -/
def str_contains (s sub : String) : Bool :=
  (s.splitOn sub).length ≠ 1

/-- `_rule_based_respond`, `agents/security_auditor.py` lines 270-310: the
deterministic no-LLM response.  Apostrophes of the source message texts are
written with the escape `\x27`. -/
def rule_based_respond (now : ℚ) (analysis : CodeAnalysis)
    (last_msg : ReviewMessage) : ReviewMessage :=
  if last_msg.verdict = some .APPROVE ∧ analysis.issues ≠ [] then
    let content := "I understand @" ++ last_msg.agent_name ++
      "\x27s perspective, but I maintain my concerns about security. " ++
      "The following issues cannot be ignored:\n\n" ++
      String.intercalate "\n" ((analysis.issues.take 3).map
        (fun i => "- " ++ i))
    create_security_message now content (some .REJECT)
      (some last_msg.agent_name)
  else if last_msg.verdict = some .REJECT ∧ analysis.issues = [] then
    let content := "From a pure security standpoint, I found no critical " ++
      "issues. However, I defer to @" ++ last_msg.agent_name ++
      "\x27s concerns in their domain."
    create_security_message now content (some .NEEDS_DISCUSSION)
      (some last_msg.agent_name)
  else
    let content := "Acknowledged @" ++ last_msg.agent_name ++
      "\x27s points. My security assessment stands: " ++
      toString analysis.issues.length ++ " critical issues, " ++
      toString analysis.warnings.length ++ " warnings."
    create_security_message now content (some analysis.verdict)
      (some last_msg.agent_name)

/-- The `try`/`except` of `_llm_analyze_code`, `agents/security_auditor.py`
lines 121-139.  The external collaborator call (`self.llm_client.chat`, an
LLM HTTP client outside the core) enters as its outcome `chat`; the
response parser of lines 141-191 enters as the function `parse`, and the
positive-signal scan of lines 57-84 (regex based, not touched by the
exception path) enters as the pre-computed list `positives`.  A raised
exception is the `Except.error` case and yields the neutral analysis of
lines 133-139. -/
def llm_analyze_code (parse : String → List String → CodeAnalysis)
    (chat : Except String String) (positives : List String) : CodeAnalysis :=
  match chat with
  | .ok response => parse response positives
  | .error _ =>
    { issues := [], warnings := [], positives := positives,
      verdict := .NEEDS_DISCUSSION, confidence := 1/2 }

/-- The `try`/`except` of `_llm_respond`, `agents/security_auditor.py`
lines 356-374: on a successful collaborator reply the verdict is lifted
from the reply text (APPROVE beats REJECT beats the standing analysis
verdict, lines 365-371); a raised exception is the `Except.error` case and
falls back to the rule-based response of line 374. -/
def llm_respond (now : ℚ) (chat : Except String String)
    (analysis : CodeAnalysis) (last_msg : ReviewMessage) : ReviewMessage :=
  match chat with
  | .ok response =>
    let verdict : ReviewVerdict :=
      if str_contains response.toUpper "APPROVE" then .APPROVE
      else if str_contains response.toUpper "REJECT" then .REJECT
      else analysis.verdict
    create_security_message now response (some verdict)
      (some last_msg.agent_name)
  | .error _ => rule_based_respond now analysis last_msg

/-- JSON value tree, the target of `ConversationLog.to_dict`
(`conversation.py` lines 25-62).  Python dicts appear as field lists in
insertion order.  `json.dumps` / `json.loads` (Python standard library,
not repository code) carry such a tree to text and back losslessly, so the
textual layer is modelled as the identity on the tree and the round-trip
claim is settled on the tree itself. -/
inductive Json where
  | null
  | jbool (b : Bool)
  | jnum (q : ℚ)
  | jstr (s : String)
  | jarr (items : List Json)
  | jobj (fields : List (String × Json))

/-- The conversation log record, `conversation.py` lines 14-23.  The
`datetime` values are modelled by their `isoformat()` strings, which is
all `to_dict` ever reads of them. -/
structure ConversationLog where
  code_hash : String
  filename : String
  started_at : String
  ended_at : Option String := none
  messages : List ReviewMessage := []
  analyses : List (String × CodeAnalysis) := []
  consensus_result : Option ConsensusResult := none
deriving DecidableEq, Repr

/-- The per-message dict of `conversation.py` lines 33-39. -/
def message_to_dict (m : ReviewMessage) : Json :=
  .jobj [("agent", .jstr m.agent_name),
    ("content", .jstr m.content),
    ("verdict", match m.verdict with
      | some u => .jstr u.value
      | none => .null),
    ("timestamp", .jnum m.timestamp),
    ("in_reply_to", match m.in_reply_to with
      | some s => .jstr s
      | none => .null)]

/-- The per-analysis dict of `conversation.py` lines 43-49. -/
def analysis_to_dict (a : CodeAnalysis) : Json :=
  .jobj [("issues", .jarr (a.issues.map Json.jstr)),
    ("warnings", .jarr (a.warnings.map Json.jstr)),
    ("positives", .jarr (a.positives.map Json.jstr)),
    ("verdict", .jstr a.verdict.value),
    ("confidence", .jnum a.confidence)]

/-- The consensus-result dict of `conversation.py` lines 52-61. -/
def consensus_result_to_dict (r : ConsensusResult) : Json :=
  .jobj [("final_verdict", .jstr r.final_verdict.value),
    ("consensus_reached", .jbool r.consensus_reached),
    ("vote_breakdown",
      .jobj (r.vote_breakdown.map (fun p => (p.1, Json.jstr p.2.value)))),
    ("confidence_scores",
      .jobj (r.confidence_scores.map (fun p => (p.1, Json.jnum p.2)))),
    ("total_confidence", .jnum r.total_confidence),
    ("rounds_taken", .jnum (r.rounds_taken : ℚ)),
    ("dissenting_opinions",
      .jarr (r.dissenting_opinions.map Json.jstr)),
    ("summary", .jstr r.summary)]

/-- `ConversationLog.to_dict`, `conversation.py` lines 25-62. -/
def ConversationLog.to_dict (log : ConversationLog) : Json :=
  .jobj [("code_hash", .jstr log.code_hash),
    ("filename", .jstr log.filename),
    ("started_at", .jstr log.started_at),
    ("ended_at", match log.ended_at with
      | some s => .jstr s
      | none => .null),
    ("messages", .jarr (log.messages.map message_to_dict)),
    ("analyses",
      .jobj (log.analyses.map (fun p => (p.1, analysis_to_dict p.2)))),
    ("consensus_result", match log.consensus_result with
      | some r => consensus_result_to_dict r
      | none => .null)]

/-- Field lookup in a JSON object (Python `parsed["key"]`). -/
def Json.get (j : Json) (key : String) : Option Json :=
  match j with
  | .jobj fields => (fields.find? (fun p => p.1 = key)).map Prod.snd
  | _ => none

/-- Read a JSON string. -/
def Json.asStr : Json → Option String
  | .jstr s => some s
  | _ => none

/-- Read a JSON number as a rational. -/
def Json.asNum : Json → Option ℚ
  | .jnum q => some q
  | _ => none

/-- Read a JSON boolean. -/
def Json.asBool : Json → Option Bool
  | .jbool b => some b
  | _ => none

/-- Read a JSON number as a natural number. -/
def Json.asNat : Json → Option ℕ
  | .jnum q => if 0 ≤ q.num ∧ q.den = 1 then some q.num.toNat else none
  | _ => none

/-- Modelled from the spec: the reparser direction of the round-trip
property of section 8 ("serializing then reparsing a sealed log reproduces
identical message order, verdicts, and consensus fields"); the repository
has no reparser of its own, so one is built against the stable
serialization shape of spec section 6.  Inverse of `ReviewVerdict.value`. -/
def parse_verdict (s : String) : Option ReviewVerdict :=
  if s = "APPROVE" then some .APPROVE
  else if s = "REJECT" then some .REJECT
  else if s = "NEEDS_DISCUSSION" then some .NEEDS_DISCUSSION
  else none

/-- Modelled from the spec: a nullable verdict field. -/
def parse_opt_verdict : Json → Option (Option ReviewVerdict)
  | .null => some none
  | .jstr s => (parse_verdict s).map some
  | _ => none

/-- Modelled from the spec: a nullable string field. -/
def parse_opt_str : Json → Option (Option String)
  | .null => some none
  | .jstr s => some (some s)
  | _ => none

/-- Modelled from the spec: parse every array element, failing on the
first failure. -/
def parse_items (p : Json → Option α) : List Json → Option (List α)
  | [] => some []
  | j :: js =>
    match p j, parse_items p js with
    | some x, some xs => some (x :: xs)
    | _, _ => none

/-- Modelled from the spec: parse every value of a JSON object, keeping
keys and order. -/
def parse_fields (p : Json → Option α) :
    List (String × Json) → Option (List (String × α))
  | [] => some []
  | (k, j) :: rest =>
    match p j, parse_fields p rest with
    | some x, some xs => some ((k, x) :: xs)
    | _, _ => none

/-- Modelled from the spec: a list of strings. -/
def parse_str_list : Json → Option (List String)
  | .jarr items => parse_items Json.asStr items
  | _ => none

/-- Modelled from the spec: one serialized message. -/
def parse_message (j : Json) : Option ReviewMessage :=
  match (j.get "agent").bind Json.asStr,
      (j.get "content").bind Json.asStr,
      (j.get "verdict").bind parse_opt_verdict,
      (j.get "timestamp").bind Json.asNum,
      (j.get "in_reply_to").bind parse_opt_str with
  | some agent, some content, some verdict, some ts, some reply =>
    some { agent_name := agent, content := content, verdict := verdict,
           timestamp := ts, in_reply_to := reply }
  | _, _, _, _, _ => none

/-- Modelled from the spec: one serialized analysis. -/
def parse_analysis (j : Json) : Option CodeAnalysis :=
  match (j.get "issues").bind parse_str_list,
      (j.get "warnings").bind parse_str_list,
      (j.get "positives").bind parse_str_list,
      (j.get "verdict").bind (fun x => x.asStr.bind parse_verdict),
      (j.get "confidence").bind Json.asNum with
  | some issues, some warnings, some positives, some verdict, some conf =>
    some { issues := issues, warnings := warnings, positives := positives,
           verdict := verdict, confidence := conf }
  | _, _, _, _, _ => none

/-- Modelled from the spec: the serialized vote breakdown. -/
def parse_breakdown : Json → Option (List (String × ReviewVerdict))
  | .jobj fields =>
    parse_fields (fun x => x.asStr.bind parse_verdict) fields
  | _ => none

/-- Modelled from the spec: the serialized confidence scores. -/
def parse_scores : Json → Option (List (String × ℚ))
  | .jobj fields => parse_fields Json.asNum fields
  | _ => none

/-- Modelled from the spec: the serialized consensus result. -/
def parse_consensus_result (j : Json) : Option ConsensusResult :=
  match (j.get "final_verdict").bind (fun x => x.asStr.bind parse_verdict),
      (j.get "consensus_reached").bind Json.asBool,
      (j.get "vote_breakdown").bind parse_breakdown,
      (j.get "confidence_scores").bind parse_scores,
      (j.get "total_confidence").bind Json.asNum,
      (j.get "rounds_taken").bind Json.asNat,
      (j.get "dissenting_opinions").bind parse_str_list,
      (j.get "summary").bind Json.asStr with
  | some fv, some cr, some vb, some cs, some tc, some rt, some di, some su =>
    some { final_verdict := fv, consensus_reached := cr,
           vote_breakdown := vb, confidence_scores := cs,
           total_confidence := tc, rounds_taken := rt,
           dissenting_opinions := di, summary := su }
  | _, _, _, _, _, _, _, _ => none

/-- Modelled from the spec: a nullable consensus result. -/
def parse_opt_consensus : Json → Option (Option ConsensusResult)
  | .null => some none
  | j => (parse_consensus_result j).map some

/-- Modelled from the spec: the whole serialized log. -/
def parse_log (j : Json) : Option ConversationLog :=
  match (j.get "code_hash").bind Json.asStr,
      (j.get "filename").bind Json.asStr,
      (j.get "started_at").bind Json.asStr,
      (j.get "ended_at").bind parse_opt_str,
      (j.get "messages").bind (fun x => match x with
        | .jarr items => parse_items parse_message items
        | _ => none),
      (j.get "analyses").bind (fun x => match x with
        | .jobj fields => parse_fields parse_analysis fields
        | _ => none),
      (j.get "consensus_result").bind parse_opt_consensus with
  | some ch, some fn, some sa, some ea, some ms, some an, some cr =>
    some { code_hash := ch, filename := fn, started_at := sa,
           ended_at := ea, messages := ms, analyses := an,
           consensus_result := cr }
  | _, _, _, _, _, _, _ => none

/-- Concrete ledger for the SecurityVeto witness: spec section 8,
scenario 2 (SecurityAuditor Reject at 0.8, two approvers at 0.9). -/
def veto_demo : ConsensusManager :=
  { method := .SECURITY_VETO,
    votes := [
      { agent_name := "SecurityAuditor", verdict := .REJECT,
        confidence := 4/5, role_weight := 3/2 },
      { agent_name := "CodeQualityReviewer", verdict := .APPROVE,
        confidence := 9/10 },
      { agent_name := "RuleComplianceVerifier", verdict := .APPROVE,
        confidence := 9/10, role_weight := 13/10 }],
    rounds := 0 }

/-- Concrete ledger without any SecurityAuditor vote, for the fall-through
comparison between the security_veto and weighted policies. -/
def no_veto_demo : ConsensusManager :=
  { method := .SECURITY_VETO,
    votes := [
      { agent_name := "CodeQualityReviewer", verdict := .APPROVE,
        confidence := 3/5 }],
    rounds := 0 }

/-- Concrete ledger for the majority witness: two approvals against one
rejection among three voters. -/
def majority_demo : ConsensusManager :=
  { method := .MAJORITY,
    votes := [
      { agent_name := "SecurityAuditor", verdict := .APPROVE,
        confidence := 4/5, role_weight := 3/2 },
      { agent_name := "CodeQualityReviewer", verdict := .APPROVE,
        confidence := 3/5 },
      { agent_name := "RuleComplianceVerifier", verdict := .REJECT,
        confidence := 1, role_weight := 13/10 }],
    rounds := 0 }

/-- Concrete ledger for the unanimous witness: spec section 8, scenario 1
(three approvals at 0.9). -/
def unanimous_demo : ConsensusManager :=
  { method := .UNANIMOUS,
    votes := [
      { agent_name := "SecurityAuditor", verdict := .APPROVE,
        confidence := 9/10, role_weight := 3/2 },
      { agent_name := "CodeQualityReviewer", verdict := .APPROVE,
        confidence := 9/10 },
      { agent_name := "RuleComplianceVerifier", verdict := .APPROVE,
        confidence := 9/10, role_weight := 13/10 }],
    rounds := 0 }

/-- Concrete ledger for the weighted witness: spec section 8, scenario 3
(two approvals at 0.6 and weight 1, SecurityAuditor rejection at 0.9 and
weight 1.5; the rejection scores 1.35 of 2.55). -/
def weighted_demo : ConsensusManager :=
  { method := .WEIGHTED,
    votes := [
      { agent_name := "CodeQualityReviewer", verdict := .APPROVE,
        confidence := 3/5 },
      { agent_name := "RuleComplianceVerifier", verdict := .APPROVE,
        confidence := 3/5 },
      { agent_name := "SecurityAuditor", verdict := .REJECT,
        confidence := 9/10, role_weight := 3/2 }],
    rounds := 0 }

/-- Concrete ledger for the tie-break witness: a single vote of
confidence 0, so every weighted score is 0. -/
def zero_conf_demo : ConsensusManager :=
  { method := .WEIGHTED,
    votes := [
      { agent_name := "CodeQualityReviewer", verdict := .REJECT,
        confidence := 0 }],
    rounds := 0 }

/-- Concrete two-agent ledger for the add_vote witness. -/
def upsert_demo : ConsensusManager :=
  { method := .SECURITY_VETO,
    votes := [
      { agent_name := "CodeQualityReviewer", verdict := .APPROVE,
        confidence := 1 },
      { agent_name := "SecurityAuditor", verdict := .REJECT,
        confidence := 1, role_weight := 3/2 }],
    rounds := 0 }

/-- Concrete sealed conversation log for the round-trip witness. -/
def sealed_log_demo : ConversationLog :=
  { code_hash := "abcd1234abcd1234",
    filename := "agent.py",
    started_at := "2026-01-01T10:00:00",
    ended_at := some "2026-01-01T10:00:05",
    messages := [
      { agent_name := "SecurityAuditor", content := "Security analysis",
        verdict := some .REJECT, timestamp := 17, in_reply_to := none },
      { agent_name := "CodeQualityReviewer", content := "Looks fine",
        verdict := some .APPROVE, timestamp := 18,
        in_reply_to := some "SecurityAuditor" },
      { agent_name := "RuleComplianceVerifier", content := "No verdict yet",
        verdict := none, timestamp := 19, in_reply_to := none }],
    analyses := [
      ("SecurityAuditor",
        { issues := ["obfuscated payload"], warnings := [],
          positives := ["Has docstrings"], verdict := .REJECT,
          confidence := 4/5 }),
      ("CodeQualityReviewer",
        { issues := [], warnings := ["long function"],
          positives := [], verdict := .APPROVE, confidence := 7/10 })],
    consensus_result := some
      { final_verdict := .REJECT,
        consensus_reached := true,
        vote_breakdown := [("SecurityAuditor", .REJECT),
          ("CodeQualityReviewer", .APPROVE)],
        confidence_scores := [("SecurityAuditor", 4/5),
          ("CodeQualityReviewer", 7/10)],
        total_confidence := 4/5,
        rounds_taken := 1,
        dissenting_opinions := ["CodeQualityReviewer: APPROVE"],
        summary := "SECURITY VETO: obfuscated payload" } }

/-- A manager with the same ledger and rounds but another configured
policy (used to compare the security_veto fall-through with the weighted
policy on the same ledger). -/
def with_method (m : ConsensusManager) (method : ConsensusMethod) :
    ConsensusManager :=
  { m with method := method }

/-- Position of each verdict in the scan order of the `weighted_scores`
dict (APPROVE first, then REJECT, then NEEDS_DISCUSSION). -/
def verdict_scan_index : ReviewVerdict → ℕ
  | .APPROVE => 0
  | .REJECT => 1
  | .NEEDS_DISCUSSION => 2

/-!
Theorems.  Helper lemmas come first, then one theorem per claim with its
witness or counterexample.
-/

/-- C7: should_continue is false once rounds reach max_rounds even without
consensus, false once calculate_consensus on the current ledger reports
consensus_reached, and true otherwise. -/
theorem C7_should_continue (m : ConsensusManager) :
    m.should_continue =
      (decide (m.rounds < m.max_rounds) &&
        !(m.calculate_consensus).consensus_reached) := by
  unfold ConsensusManager.should_continue
  by_cases h : m.rounds ≥ m.max_rounds
  · simp [h, Nat.not_lt.mpr h]
  · simp [h, Nat.lt_of_not_le h]

/-- C2 counterexample: with an empty roster and the majority method,
nothing is raised before or during consensus; calculate_consensus returns
the defined empty result — consensus_reached false and the
"No votes received" summary — exactly the silent empty result the claim
says never occurs. -/
theorem C2_counterexample :
    (ConsensusManager.mk .MAJORITY [] 0 3).calculate_consensus =
      empty_consensus_result 0 ∧
    (empty_consensus_result 0).summary = "No votes received" ∧
    (empty_consensus_result 0).consensus_reached = false :=
  ⟨rfl, rfl, rfl⟩

/-- C2 (amended): an empty reviewer roster is not fatal — under every
configured method and round count the consensus computation on the empty
ledger returns the defined empty result (NeedsDiscussion, no consensus,
summary "No votes received") instead of raising. -/
theorem C2_empty_roster_defined (method : ConsensusMethod)
    (rounds maxr : ℕ) :
    (ConsensusManager.mk method [] rounds maxr).calculate_consensus =
      empty_consensus_result rounds := rfl

/-- C8: a collaborator exception during analysis is contained — the agent
returns the neutral NeedsDiscussion analysis at confidence 0.5 carrying
its positives — and a collaborator exception during discussion response is
contained — the agent still returns a message, the rule-based response,
which speaks as SecurityAuditor in reply to the last other-agent
message. -/
theorem C8_failure_containment :
    (∀ (parse : String → List String → CodeAnalysis) (e : String)
        (positives : List String),
      llm_analyze_code parse (.error e) positives =
        { issues := [], warnings := [], positives := positives,
          verdict := .NEEDS_DISCUSSION, confidence := 1/2 }) ∧
    (∀ (now : ℚ) (e : String) (analysis : CodeAnalysis)
        (last_msg : ReviewMessage),
      llm_respond now (.error e) analysis last_msg =
        rule_based_respond now analysis last_msg) ∧
    (∀ (now : ℚ) (analysis : CodeAnalysis) (last_msg : ReviewMessage),
      (rule_based_respond now analysis last_msg).agent_name =
          "SecurityAuditor" ∧
      (rule_based_respond now analysis last_msg).in_reply_to =
          some last_msg.agent_name) := by
  refine ⟨fun _ _ _ => rfl, fun _ _ _ _ => rfl,
    fun now analysis last_msg => ?_⟩
  unfold rule_based_respond
  split_ifs <;> exact ⟨rfl, rfl⟩

/-- Dispatch of `calculate_consensus` to the majority branch. -/
theorem calc_majority_eq (m : ConsensusManager) (hm : m.method = .MAJORITY)
    (hne : m.votes ≠ []) :
    m.calculate_consensus =
      m.majority_consensus m.vote_breakdown_list m.confidence_scores_list := by
  unfold ConsensusManager.calculate_consensus
  simp [hne, hm]

/-- Dispatch of `calculate_consensus` to the unanimous branch. -/
theorem calc_unanimous_eq (m : ConsensusManager)
    (hm : m.method = .UNANIMOUS) (hne : m.votes ≠ []) :
    m.calculate_consensus =
      m.unanimous_consensus m.vote_breakdown_list m.confidence_scores_list := by
  unfold ConsensusManager.calculate_consensus
  simp [hne, hm]

/-- Dispatch of `calculate_consensus` to the weighted branch. -/
theorem calc_weighted_eq (m : ConsensusManager) (hm : m.method = .WEIGHTED)
    (hne : m.votes ≠ []) :
    m.calculate_consensus =
      m.weighted_consensus m.vote_breakdown_list m.confidence_scores_list := by
  unfold ConsensusManager.calculate_consensus
  simp [hne, hm]

/-- Dispatch of `calculate_consensus` to the security-veto branch. -/
theorem calc_security_veto_eq (m : ConsensusManager)
    (hm : m.method = .SECURITY_VETO) (hne : m.votes ≠ []) :
    m.calculate_consensus =
      m.security_veto_consensus m.vote_breakdown_list
        m.confidence_scores_list := by
  unfold ConsensusManager.calculate_consensus
  simp [hne, hm]

/-- Removing the votes of one present agent from a duplicate-free ledger
shrinks it by exactly one entry. -/
theorem filter_ne_length (l : List AgentVote) (n : String)
    (hnd : (l.map AgentVote.agent_name).Nodup)
    (hmem : n ∈ l.map AgentVote.agent_name) :
    (l.filter (fun v => v.agent_name ≠ n)).length + 1 = l.length := by
  induction l with
  | nil => simp at hmem
  | cons v t ih =>
    simp only [List.map_cons, List.nodup_cons] at hnd
    obtain ⟨hv, hndt⟩ := hnd
    simp only [List.map_cons, List.mem_cons] at hmem
    rcases hmem with h | h
    · have hkeep : t.filter (fun v => v.agent_name ≠ n) = t := by
        apply List.filter_eq_self.mpr
        intro x hx
        have hxn : x.agent_name ≠ n := by
          intro hxn
          have hmm : x.agent_name ∈ t.map AgentVote.agent_name :=
            List.mem_map_of_mem _ hx
          rw [hxn, h] at hmm
          exact hv hmm
        simp [hxn]
      rw [List.filter_cons_of_neg (by simp [← h]), hkeep]
      simp
    · have hvn : v.agent_name ≠ n := by
        intro hc
        exact hv (hc ▸ h)
      have ht := ih hndt h
      rw [List.filter_cons_of_pos (by simp [hvn])]
      simp only [List.length_cons]
      omega

/-- The vote breakdown of a filtered ledger is the filtered breakdown. -/
theorem breakdown_filter (l : List AgentVote) (n : String) :
    (l.filter (fun v => v.agent_name ≠ n)).map
        (fun v => (v.agent_name, v.verdict)) =
      (l.map (fun v => (v.agent_name, v.verdict))).filter
        (fun p => p.1 ≠ n) := by
  induction l with
  | nil => rfl
  | cons v t ih =>
    by_cases h : v.agent_name = n
    · rw [List.filter_cons_of_neg (by simp [h]), List.map_cons,
        List.filter_cons_of_neg (by simp [h]), ih]
    · rw [List.filter_cons_of_pos (by simp [h]), List.map_cons,
        List.map_cons, List.filter_cons_of_pos (by simp [h]), ih]

/-- C6: add_vote for an already-present agent is an upsert — the ledger
size is unchanged, the stored entry carries the latest verdict, confidence
and rationale together with the static role weight, the breakdown shows
the re-voting agent moved to the most-recent position, and the role-weight
table is SecurityAuditor 1.5, RuleComplianceVerifier 1.3,
CodeQualityReviewer 1.0 and 1.0 for every other name. -/
theorem C6_add_vote_upsert (m : ConsensusManager) (name : String)
    (verdict : ReviewVerdict) (conf : ℚ) (rat : String)
    (hnd : (m.votes.map AgentVote.agent_name).Nodup)
    (hmem : name ∈ m.votes.map AgentVote.agent_name) :
    ((m.add_vote name verdict conf rat).votes.length = m.votes.length) ∧
    ((m.add_vote name verdict conf rat).votes =
      m.votes.filter (fun v => v.agent_name ≠ name) ++
        [{ agent_name := name, verdict := verdict, confidence := conf,
           role_weight := ROLE_WEIGHTS_get name, rationale := rat }]) ∧
    ((m.add_vote name verdict conf rat).vote_breakdown_list =
      (m.vote_breakdown_list.filter (fun p => p.1 ≠ name)) ++
        [(name, verdict)]) ∧
    ROLE_WEIGHTS_get "SecurityAuditor" = 3/2 ∧
    ROLE_WEIGHTS_get "RuleComplianceVerifier" = 13/10 ∧
    ROLE_WEIGHTS_get "CodeQualityReviewer" = 1 ∧
    (∀ s : String, s ≠ "SecurityAuditor" → s ≠ "RuleComplianceVerifier" →
      s ≠ "CodeQualityReviewer" → ROLE_WEIGHTS_get s = 1) := by
  refine ⟨?_, rfl, ?_, rfl, rfl, rfl, ?_⟩
  · show (m.votes.filter _ ++ [_]).length = m.votes.length
    rw [List.length_append]
    simpa using filter_ne_length m.votes name hnd hmem
  · show ((m.votes.filter _ ++ [_]).map _) = _
    rw [List.map_append, breakdown_filter]
    rfl
  · intro s h1 h2 h3
    simp [ROLE_WEIGHTS_get, h1, h2, h3]

/-- Witness for C6 at a concrete two-agent ledger with a repeated vote. -/
theorem C6_witness :
    ((upsert_demo.add_vote "CodeQualityReviewer" .REJECT (1/2)
        "changed my mind").votes.length = upsert_demo.votes.length) ∧
    ((upsert_demo.add_vote "CodeQualityReviewer" .REJECT (1/2)
        "changed my mind").vote_breakdown_list =
      [("SecurityAuditor", .REJECT), ("CodeQualityReviewer", .REJECT)]) := by
  have h := C6_add_vote_upsert upsert_demo "CodeQualityReviewer" .REJECT
    (1/2) "changed my mind" (by decide) (by decide)
  exact ⟨h.1, by rw [h.2.2.1]; rfl⟩

/-- The three verdict counts partition any verdict list. -/
theorem count_partition (l : List ReviewVerdict) :
    l.count .APPROVE + l.count .REJECT + l.count .NEEDS_DISCUSSION
      = l.length := by
  induction l with
  | nil => rfl
  | cons v t ih =>
    cases v <;> simp [List.count_cons] <;> omega

/-- The breakdown of a ledger projects to its verdict list. -/
theorem breakdown_snd (m : ConsensusManager) :
    m.vote_breakdown_list.map Prod.snd = m.votes.map AgentVote.verdict := by
  simp [ConsensusManager.vote_breakdown_list, List.map_map]

/-- The winner search returns exactly the verdicts holding a strict
majority of the `N` voters (the Python threshold `N // 2 + 1` is reached
exactly when twice the count exceeds `N`). -/
theorem majority_pick_some_iff (f : ReviewVerdict → ℕ) (N : ℕ)
    (hf : f .APPROVE + f .REJECT + f .NEEDS_DISCUSSION = N)
    (u : ReviewVerdict) :
    majority_pick f (N / 2 + 1) = some u ↔ 2 * f u > N := by
  unfold majority_pick
  rcases u <;> split_ifs with h1 h2 h3 <;> simp_all <;> omega

/-- Field views of the majority result. -/
theorem majority_final (m : ConsensusManager) (vb) (cs) :
    (m.majority_consensus vb cs).final_verdict =
      (majority_pick (verdict_count vb) (vb.length / 2 + 1)).getD
        .NEEDS_DISCUSSION := rfl

/-- Field view of the majority consensus flag. -/
theorem majority_reached (m : ConsensusManager) (vb) (cs) :
    (m.majority_consensus vb cs).consensus_reached =
      (majority_pick (verdict_count vb) (vb.length / 2 + 1)).isSome := rfl

/-- Field view of the majority confidence (mean over the agreeing votes,
0 when none agree). -/
theorem majority_conf (m : ConsensusManager) (vb) (cs) :
    (m.majority_consensus vb cs).total_confidence =
      (if m.votes.filter (fun v =>
            v.verdict = (m.majority_consensus vb cs).final_verdict) ≠ [] then
        ((m.votes.filter (fun v =>
            v.verdict = (m.majority_consensus vb cs).final_verdict)).map
          AgentVote.confidence).sum /
        ((m.votes.filter (fun v =>
            v.verdict =
              (m.majority_consensus vb cs).final_verdict)).length : ℚ)
      else 0) := rfl

/-- C3: under the majority policy on a non-empty duplicate-free ledger of
N votes, a verdict is declared the winner exactly when its tally strictly
exceeds N/2; with no such verdict the result is NeedsDiscussion without
consensus; and total_confidence is the mean confidence of the votes
agreeing with the final verdict, 0 when none agree. -/
theorem C3_majority (m : ConsensusManager) (hm : m.method = .MAJORITY)
    (hne : m.votes ≠ [])
    (hnd : (m.votes.map AgentVote.agent_name).Nodup) :
    (∀ u : ReviewVerdict,
      ((m.calculate_consensus).consensus_reached = true ∧
        (m.calculate_consensus).final_verdict = u) ↔
      2 * (m.votes.map AgentVote.verdict).count u > m.votes.length) ∧
    ((∀ u : ReviewVerdict,
        ¬ 2 * (m.votes.map AgentVote.verdict).count u > m.votes.length) →
      (m.calculate_consensus).final_verdict = .NEEDS_DISCUSSION ∧
      (m.calculate_consensus).consensus_reached = false) ∧
    ((m.calculate_consensus).total_confidence =
      (if m.votes.filter (fun v =>
            v.verdict = (m.calculate_consensus).final_verdict) ≠ [] then
        ((m.votes.filter (fun v =>
            v.verdict = (m.calculate_consensus).final_verdict)).map
          AgentVote.confidence).sum /
        ((m.votes.filter (fun v =>
            v.verdict =
              (m.calculate_consensus).final_verdict)).length : ℚ)
      else 0)) := by
  rw [calc_majority_eq m hm hne]
  have hcnt : ∀ u, verdict_count m.vote_breakdown_list u =
      (m.votes.map AgentVote.verdict).count u := by
    intro u
    unfold verdict_count
    rw [breakdown_snd]
  have hN : m.vote_breakdown_list.length = m.votes.length := by
    simp [ConsensusManager.vote_breakdown_list]
  have hpart : verdict_count m.vote_breakdown_list .APPROVE +
      verdict_count m.vote_breakdown_list .REJECT +
      verdict_count m.vote_breakdown_list .NEEDS_DISCUSSION =
      m.votes.length := by
    rw [hcnt, hcnt, hcnt]
    have := count_partition (m.votes.map AgentVote.verdict)
    simpa using this
  refine ⟨?_, ?_, majority_conf m _ _⟩
  · intro u
    rw [majority_reached, majority_final, hN]
    constructor
    · rintro ⟨hs, hg⟩
      obtain ⟨w, hw⟩ := Option.isSome_iff_exists.mp hs
      rw [hw] at hg
      simp only [Option.getD_some] at hg
      subst hg
      rw [← hcnt]
      exact (majority_pick_some_iff _ _ hpart _).mp hw
    · intro h
      have hp := (majority_pick_some_iff _ _ hpart u).mpr (by rw [hcnt]; exact h)
      simp [hp]
  · intro hall
    rw [majority_final, majority_reached, hN]
    cases hpick : majority_pick (verdict_count m.vote_breakdown_list)
        (m.votes.length / 2 + 1) with
    | none => simp
    | some w =>
      have := (majority_pick_some_iff _ _ hpart w).mp hpick
      rw [hcnt] at this
      exact absurd this (hall w)

/-- Witness for C3: two approvals against one rejection among three
voters give APPROVE with consensus. -/
theorem C3_witness :
    (majority_demo.calculate_consensus).consensus_reached = true ∧
    (majority_demo.calculate_consensus).final_verdict = .APPROVE := by
  have h := C3_majority majority_demo rfl (by decide) (by decide)
  exact (h.1 .APPROVE).mpr (by decide)

/-- The confidence scores of a ledger project to its confidence list. -/
theorem scores_snd (m : ConsensusManager) :
    m.confidence_scores_list.map Prod.snd =
      m.votes.map AgentVote.confidence := by
  simp [ConsensusManager.confidence_scores_list, List.map_map]

/-- The inhabited head of a non-empty list is a member. -/
theorem headI_mem_of_ne_nil {α : Type} [Inhabited α] (l : List α)
    (h : l ≠ []) : l.headI ∈ l := by
  cases l with
  | nil => exact absurd rfl h
  | cons a t => exact List.Mem.head t

/-- A non-empty list has a single distinct element exactly when every
element equals its head. -/
theorem dedup_length_one_iff (l : List ReviewVerdict) (hne : l ≠ []) :
    l.dedup.length = 1 ↔ ∀ a ∈ l, a = l.headI := by
  constructor
  · intro h
    obtain ⟨b, hb⟩ := List.length_eq_one.mp h
    have hall : ∀ x ∈ l, x = b := by
      intro x hx
      have hxd : x ∈ l.dedup := List.mem_dedup.mpr hx
      rw [hb] at hxd
      simpa using hxd
    intro a ha
    rw [hall a ha, hall l.headI (headI_mem_of_ne_nil l hne)]
  · intro h
    cases hd : l.dedup with
    | nil => exact absurd ((List.dedup_eq_nil l).mp hd) hne
    | cons b bs =>
      cases bs with
      | nil => rfl
      | cons c t =>
        exfalso
        have hnd := l.nodup_dedup
        rw [hd, List.nodup_cons] at hnd
        have hbm : b ∈ l := List.mem_dedup.mp
          (by rw [hd]; exact List.Mem.head _)
        have hcm : c ∈ l := List.mem_dedup.mp
          (by rw [hd]; exact List.Mem.tail _ (List.Mem.head _))
        have hbc : b = c := by rw [h b hbm, h c hcm]
        apply hnd.1
        rw [hbc]
        exact List.Mem.head t

/-- The head of the verdict projection is the head vote's verdict. -/
theorem headI_map_verdict (l : List AgentVote) (h : l ≠ []) :
    (l.map AgentVote.verdict).headI = l.headI.verdict := by
  cases l with
  | nil => exact absurd rfl h
  | cons v t => rfl

/-- The unanimous branch when every verdict is the same. -/
theorem unanimous_spec_pos (m : ConsensusManager) (vb) (cs)
    (h : (vb.map Prod.snd).dedup.length = 1) :
    (m.unanimous_consensus vb cs).consensus_reached = true ∧
    (m.unanimous_consensus vb cs).final_verdict = (vb.map Prod.snd).headI ∧
    (m.unanimous_consensus vb cs).total_confidence =
      (cs.map Prod.snd).sum / (cs.length : ℚ) := by
  unfold ConsensusManager.unanimous_consensus
  simp [h]

/-- The unanimous branch when the verdicts differ. -/
theorem unanimous_spec_neg (m : ConsensusManager) (vb) (cs)
    (h : ¬ (vb.map Prod.snd).dedup.length = 1) :
    (m.unanimous_consensus vb cs).consensus_reached = false ∧
    (m.unanimous_consensus vb cs).final_verdict = .NEEDS_DISCUSSION ∧
    (m.unanimous_consensus vb cs).total_confidence = 1/2 ∧
    (m.unanimous_consensus vb cs).dissenting_opinions =
      vb.map (fun p => p.1 ++ ": " ++ p.2.value) := by
  unfold ConsensusManager.unanimous_consensus
  simp [h]

/-- C4: under the unanimous policy on a non-empty duplicate-free ledger,
consensus is reached exactly when all verdicts agree; then the final
verdict is the common one and total_confidence is the mean of all
confidences; otherwise the result is NeedsDiscussion at confidence 0.5
with one dissenting agent:verdict line per ledger entry. -/
theorem C4_unanimous (m : ConsensusManager) (hm : m.method = .UNANIMOUS)
    (hne : m.votes ≠ [])
    (hnd : (m.votes.map AgentVote.agent_name).Nodup) :
    ((m.calculate_consensus).consensus_reached = true ↔
      ∀ v ∈ m.votes, ∀ w ∈ m.votes, v.verdict = w.verdict) ∧
    ((m.calculate_consensus).consensus_reached = true →
      (m.calculate_consensus).final_verdict = m.votes.headI.verdict ∧
      (m.calculate_consensus).total_confidence =
        (m.votes.map AgentVote.confidence).sum / (m.votes.length : ℚ)) ∧
    ((m.calculate_consensus).consensus_reached = false →
      (m.calculate_consensus).final_verdict = .NEEDS_DISCUSSION ∧
      (m.calculate_consensus).total_confidence = 1/2 ∧
      (m.calculate_consensus).dissenting_opinions =
        m.votes.map (fun v => v.agent_name ++ ": " ++ v.verdict.value)) := by
  rw [calc_unanimous_eq m hm hne]
  have hvl : m.vote_breakdown_list.map Prod.snd =
      m.votes.map AgentVote.verdict := breakdown_snd m
  have hvne : m.votes.map AgentVote.verdict ≠ [] := by
    simp [hne]
  have hiff : (m.votes.map AgentVote.verdict).dedup.length = 1 ↔
      ∀ v ∈ m.votes, ∀ w ∈ m.votes, v.verdict = w.verdict := by
    rw [dedup_length_one_iff _ hvne]
    constructor
    · intro h v hv w hw
      rw [h _ (List.mem_map_of_mem _ hv), h _ (List.mem_map_of_mem _ hw)]
    · intro h a ha
      obtain ⟨v, hv, rfl⟩ := List.mem_map.mp ha
      rw [headI_map_verdict _ hne]
      exact h v hv m.votes.headI (headI_mem_of_ne_nil m.votes hne)
  by_cases hc : (m.vote_breakdown_list.map Prod.snd).dedup.length = 1
  · obtain ⟨h1, h2, h3⟩ := unanimous_spec_pos m m.vote_breakdown_list
      m.confidence_scores_list hc
    rw [hvl] at hc
    refine ⟨?_, ?_, ?_⟩
    · rw [h1]
      simp only [true_iff]
      exact hiff.mp hc
    · intro _
      constructor
      · rw [h2, hvl, headI_map_verdict _ hne]
      · rw [h3, scores_snd]
        simp [ConsensusManager.confidence_scores_list]
    · intro habs
      rw [h1] at habs
      exact absurd habs (by simp)
  · obtain ⟨h1, h2, h3, h4⟩ := unanimous_spec_neg m m.vote_breakdown_list
      m.confidence_scores_list hc
    rw [hvl] at hc
    refine ⟨?_, ?_, ?_⟩
    · rw [h1]
      constructor
      · intro habs
        exact absurd habs (by simp)
      · intro hp
        exact absurd (hiff.mpr hp) hc
    · intro habs
      rw [h1] at habs
      exact absurd habs (by simp)
    · intro _
      refine ⟨h2, h3, ?_⟩
      rw [h4]
      simp [ConsensusManager.vote_breakdown_list, List.map_map]

/-- Witness for C4: three identical approvals reach unanimous consensus
on APPROVE. -/
theorem C4_witness :
    (unanimous_demo.calculate_consensus).consensus_reached = true ∧
    (unanimous_demo.calculate_consensus).final_verdict = .APPROVE := by
  have h := C4_unanimous unanimous_demo rfl (by decide) (by decide)
  have hr : (unanimous_demo.calculate_consensus).consensus_reached = true :=
    h.1.mpr (by decide)
  refine ⟨hr, ?_⟩
  have := (h.2.1 hr).1
  rw [this]
  rfl

/-- The three per-verdict raw scores partition the total weight. -/
theorem raw_score_partition (votes : List AgentVote) :
    raw_score votes .APPROVE + raw_score votes .REJECT +
      raw_score votes .NEEDS_DISCUSSION = total_weight votes := by
  induction votes with
  | nil => simp [raw_score, total_weight]
  | cons v t ih =>
    cases hv : v.verdict <;>
      simp [raw_score, total_weight, List.filter_cons, hv] at ih ⊢ <;>
      linarith

/-- The scan of line 218 lands on a verdict of maximal score. -/
theorem py_max_is_max (score : ReviewVerdict → ℚ) (u : ReviewVerdict) :
    score u ≤ score (py_max_verdict score) := by
  simp only [py_max_verdict]
  cases u <;> split_ifs <;> linarith

/-- Among the verdicts of maximal score, the scan of line 218 lands on
the first in scan order. -/
theorem py_max_first (score : ReviewVerdict → ℚ) (u : ReviewVerdict)
    (h : score u = score (py_max_verdict score)) :
    verdict_scan_index (py_max_verdict score) ≤ verdict_scan_index u := by
  simp only [py_max_verdict] at h ⊢
  split_ifs at h ⊢ with h1 h2 <;> cases u <;>
    simp only [verdict_scan_index] at h ⊢ <;>
    first
    | omega
    | linarith

/-- Field view of the weighted winner. -/
theorem weighted_final (m : ConsensusManager) (vb) (cs) :
    (m.weighted_consensus vb cs).final_verdict =
      py_max_verdict (weighted_scores_of m.votes) := rfl

/-- Field view of the weighted consensus flag. -/
theorem weighted_reached (m : ConsensusManager) (vb) (cs) :
    (m.weighted_consensus vb cs).consensus_reached =
      decide (weighted_scores_of m.votes
        (py_max_verdict (weighted_scores_of m.votes)) > 1/2) := rfl

/-- Field view of the weighted confidence (the winning score). -/
theorem weighted_conf (m : ConsensusManager) (vb) (cs) :
    (m.weighted_consensus vb cs).total_confidence =
      weighted_scores_of m.votes
        (py_max_verdict (weighted_scores_of m.votes)) := rfl

/-- C5: under the weighted policy on a non-empty ledger of positive total
weight, each verdict gets the normalized score (its weight sum over the
total), the three scores sum to 1, the final verdict has maximal score,
consensus holds exactly when the winning score exceeds 0.5, and
total_confidence is the winning score. -/
theorem C5_weighted (m : ConsensusManager) (hm : m.method = .WEIGHTED)
    (hne : m.votes ≠ []) (hw : total_weight m.votes > 0) :
    (∀ u, weighted_scores_of m.votes u =
      raw_score m.votes u / total_weight m.votes) ∧
    (weighted_scores_of m.votes .APPROVE +
      weighted_scores_of m.votes .REJECT +
      weighted_scores_of m.votes .NEEDS_DISCUSSION = 1) ∧
    (∀ u, weighted_scores_of m.votes u ≤
      weighted_scores_of m.votes ((m.calculate_consensus).final_verdict)) ∧
    ((m.calculate_consensus).consensus_reached = true ↔
      weighted_scores_of m.votes
        ((m.calculate_consensus).final_verdict) > 1/2) ∧
    ((m.calculate_consensus).total_confidence =
      weighted_scores_of m.votes ((m.calculate_consensus).final_verdict)) := by
  rw [calc_weighted_eq m hm hne]
  refine ⟨?_, ?_, ?_, ?_, ?_⟩
  · intro u
    unfold weighted_scores_of
    rw [if_pos hw]
  · have hp := raw_score_partition m.votes
    unfold weighted_scores_of
    rw [if_pos hw, if_pos hw, if_pos hw, div_add_div_same,
      div_add_div_same, hp, div_self (ne_of_gt hw)]
  · intro u
    rw [weighted_final]
    exact py_max_is_max _ u
  · rw [weighted_reached, weighted_final]
    simp
  · rw [weighted_conf, weighted_final]

/-- Witness for C5 at the spec scenario-3 ledger: total weight 51/20 is
positive and the three normalized scores sum to 1. -/
theorem C5_witness :
    total_weight weighted_demo.votes > 0 ∧
    (weighted_scores_of weighted_demo.votes .APPROVE +
      weighted_scores_of weighted_demo.votes .REJECT +
      weighted_scores_of weighted_demo.votes .NEEDS_DISCUSSION = 1) := by
  have hw : total_weight weighted_demo.votes > 0 := by
    norm_num [total_weight, weighted_demo]
  exact ⟨hw, (C5_weighted weighted_demo rfl (by decide) hw).2.1⟩

/-- C10: under the weighted policy the final verdict always holds a
maximal normalized score and, on ties, is the first maximal verdict in the
fixed scan order APPROVE, REJECT, NEEDS_DISCUSSION; in particular a
non-empty all-zero-confidence ledger yields APPROVE without consensus at
total confidence 0. -/
theorem C10_weighted_tiebreak (m : ConsensusManager)
    (hm : m.method = .WEIGHTED) (hne : m.votes ≠ []) :
    (∀ u, weighted_scores_of m.votes u ≤
      weighted_scores_of m.votes ((m.calculate_consensus).final_verdict)) ∧
    (∀ u, weighted_scores_of m.votes u =
        weighted_scores_of m.votes ((m.calculate_consensus).final_verdict) →
      verdict_scan_index ((m.calculate_consensus).final_verdict) ≤
        verdict_scan_index u) ∧
    ((∀ v ∈ m.votes, v.confidence = 0) →
      (m.calculate_consensus).final_verdict = .APPROVE ∧
      (m.calculate_consensus).consensus_reached = false ∧
      (m.calculate_consensus).total_confidence = 0) := by
  rw [calc_weighted_eq m hm hne]
  refine ⟨?_, ?_, ?_⟩
  · intro u
    rw [weighted_final]
    exact py_max_is_max _ u
  · intro u h
    rw [weighted_final] at h ⊢
    exact py_max_first _ u h
  · intro hz
    have hraw : ∀ u, raw_score m.votes u = 0 := by
      intro u
      apply List.sum_eq_zero
      intro x hx
      obtain ⟨v, hv, rfl⟩ := List.mem_map.mp hx
      rw [hz v (List.mem_of_mem_filter hv)]
      ring
    have htw : total_weight m.votes = 0 := by
      apply List.sum_eq_zero
      intro x hx
      obtain ⟨v, hv, rfl⟩ := List.mem_map.mp hx
      rw [hz v hv]
      ring
    have hsc : ∀ u, weighted_scores_of m.votes u = 0 := by
      intro u
      unfold weighted_scores_of
      rw [htw, hraw u]
      simp
    refine ⟨?_, ?_, ?_⟩
    · rw [weighted_final]
      simp [py_max_verdict, hsc]
    · rw [weighted_reached]
      simp [hsc]
    · rw [weighted_conf, hsc]

/-- Witness for C10: one vote of confidence 0 for REJECT still yields
APPROVE without consensus. -/
theorem C10_witness :
    (zero_conf_demo.calculate_consensus).final_verdict = .APPROVE ∧
    (zero_conf_demo.calculate_consensus).consensus_reached = false ∧
    (zero_conf_demo.calculate_consensus).total_confidence = 0 := by
  have h := C10_weighted_tiebreak zero_conf_demo rfl (by decide)
  exact h.2.2 (by decide)

/-- In a duplicate-free ledger, the first-match scan finds exactly the
member vote carrying the searched name. -/
theorem find_vote_by_name (l : List AgentVote) (n : String)
    (hnd : (l.map AgentVote.agent_name).Nodup) (v : AgentVote)
    (hv : v ∈ l) (hn : v.agent_name = n) :
    l.find? (fun w => w.agent_name = n) = some v := by
  induction l with
  | nil => simp at hv
  | cons w t ih =>
    simp only [List.map_cons, List.nodup_cons] at hnd
    obtain ⟨hw, hndt⟩ := hnd
    rcases List.mem_cons.mp hv with h | h
    · subst h
      exact List.find?_cons_of_pos _ (by simp [hn])
    · have hwn : w.agent_name ≠ n := by
        intro hc
        apply hw
        rw [hc, ← hn]
        exact List.mem_map_of_mem _ h
      rw [List.find?_cons_of_neg _ (by simp [hwn])]
      exact ih hndt h

/-- Length of the intercalate accumulator loop. -/
theorem intercalate_go_length (s : String) (as : List String) :
    ∀ acc : String,
      (String.intercalate.go acc s as).length =
        acc.length + ((as.map (fun a => s.length + a.length)).sum) := by
  induction as with
  | nil =>
    intro acc
    simp [String.intercalate.go]
  | cons a t ih =>
    intro acc
    simp only [String.intercalate.go, ih, List.map_cons, List.sum_cons,
      String.length_append]
    omega

/-- Length of an intercalated non-empty list of strings. -/
theorem intercalate_length (s a : String) (as : List String) :
    (String.intercalate s (a :: as)).length =
      a.length + ((as.map (fun x => s.length + x.length)).sum) := by
  rw [String.intercalate]
  exact intercalate_go_length s as a

/-- C1 (amended): on a duplicate-free ledger under the security_veto
policy, a SecurityAuditor vote of verdict Reject with confidence at least
0.7 short-circuits to final_verdict Reject with consensus reached and one
dissenting line per non-Reject agent; without such a vote the policy
returns the weighted policy result on the same ledger in every field
except summary (whose Method line names the configured method). -/
theorem C1_security_veto (m : ConsensusManager)
    (hnd : (m.votes.map AgentVote.agent_name).Nodup) :
    ((∃ v ∈ m.votes, v.agent_name = "SecurityAuditor" ∧
        v.verdict = .REJECT ∧ v.confidence ≥ 7/10) →
      ((with_method m .SECURITY_VETO).calculate_consensus.final_verdict =
          .REJECT ∧
        (with_method m .SECURITY_VETO).calculate_consensus.consensus_reached
          = true ∧
        (with_method m .SECURITY_VETO).calculate_consensus.dissenting_opinions
          = (m.votes.filter (fun v => v.verdict ≠ .REJECT)).map
              (fun v => v.agent_name ++ ": " ++ v.verdict.value))) ∧
    ((¬ ∃ v ∈ m.votes, v.agent_name = "SecurityAuditor" ∧
        v.verdict = .REJECT ∧ v.confidence ≥ 7/10) →
      ((with_method m .SECURITY_VETO).calculate_consensus.final_verdict =
          (with_method m .WEIGHTED).calculate_consensus.final_verdict ∧
        (with_method m .SECURITY_VETO).calculate_consensus.consensus_reached
          = (with_method m .WEIGHTED).calculate_consensus.consensus_reached ∧
        (with_method m .SECURITY_VETO).calculate_consensus.vote_breakdown
          = (with_method m .WEIGHTED).calculate_consensus.vote_breakdown ∧
        (with_method m .SECURITY_VETO).calculate_consensus.confidence_scores
          = (with_method m .WEIGHTED).calculate_consensus.confidence_scores ∧
        (with_method m .SECURITY_VETO).calculate_consensus.total_confidence
          = (with_method m .WEIGHTED).calculate_consensus.total_confidence ∧
        (with_method m .SECURITY_VETO).calculate_consensus.rounds_taken
          = (with_method m .WEIGHTED).calculate_consensus.rounds_taken ∧
        (with_method m .SECURITY_VETO).calculate_consensus.dissenting_opinions
          = (with_method m .WEIGHTED).calculate_consensus.dissenting_opinions))
    := by
  constructor
  · rintro ⟨v, hv, hname, hverdict, hconf⟩
    have hne : m.votes ≠ [] := by
      intro hc
      rw [hc] at hv
      simp at hv
    have hfind : m.votes.find? (fun w => w.agent_name = "SecurityAuditor") =
        some v := find_vote_by_name m.votes "SecurityAuditor" hnd v hv hname
    rw [calc_security_veto_eq (with_method m .SECURITY_VETO) rfl hne]
    simp only [ConsensusManager.security_veto_consensus, with_method, hfind]
    rw [if_pos ⟨hverdict, hconf⟩]
    exact ⟨rfl, rfl, rfl⟩
  · intro hno
    by_cases hne : m.votes = []
    · have hempty : ∀ mm : ConsensusManager, mm.votes = [] →
          mm.calculate_consensus = empty_consensus_result mm.rounds := by
        intro mm h
        unfold ConsensusManager.calculate_consensus
        rw [if_pos h]
      have h1 := hempty (with_method m .SECURITY_VETO) hne
      have h2 := hempty (with_method m .WEIGHTED) hne
      rw [h1, h2]
      exact ⟨rfl, rfl, rfl, rfl, rfl, rfl, rfl⟩
    · rw [calc_security_veto_eq (with_method m .SECURITY_VETO) rfl hne,
        calc_weighted_eq (with_method m .WEIGHTED) rfl hne]
      cases hfind : m.votes.find? (fun w => w.agent_name = "SecurityAuditor")
        with
      | none =>
        simp only [ConsensusManager.security_veto_consensus, with_method,
          hfind]
        exact ⟨rfl, rfl, rfl, rfl, rfl, rfl, rfl⟩
      | some sv =>
        have hmem := List.mem_of_find?_eq_some hfind
        have hpname : sv.agent_name = "SecurityAuditor" := by
          have := List.find?_some hfind
          simpa using this
        have hcond : ¬(sv.verdict = .REJECT ∧ sv.confidence ≥ 7/10) := by
          intro hc
          exact hno ⟨sv, hmem, hpname, hc.1, hc.2⟩
        simp only [ConsensusManager.security_veto_consensus, with_method,
          hfind]
        rw [if_neg hcond]
        exact ⟨rfl, rfl, rfl, rfl, rfl, rfl, rfl⟩

/-- C1 counterexample: on a one-agent ledger without any SecurityAuditor
vote, the security_veto policy does not return exactly the weighted
policy result — the summaries differ (the Method line names
security_veto on one side and weighted on the other), so the results are
distinct even though every other field agrees. -/
theorem C1_counterexample :
    (∀ v ∈ no_veto_demo.votes, ¬(v.agent_name = "SecurityAuditor" ∧
        v.verdict = .REJECT ∧ v.confidence ≥ 7/10)) ∧
    no_veto_demo.calculate_consensus ≠
      (with_method no_veto_demo .WEIGHTED).calculate_consensus := by
  constructor
  · intro v hv hcon
    rcases List.mem_singleton.mp hv with rfl
    exact absurd hcon.1 (by decide)
  · intro heq
    have hne : no_veto_demo.votes ≠ [] := by decide
    have hfind : no_veto_demo.votes.find?
        (fun w => w.agent_name = "SecurityAuditor") = none := rfl
    rw [calc_security_veto_eq no_veto_demo rfl hne,
      calc_weighted_eq (with_method no_veto_demo .WEIGHTED) rfl hne] at heq
    have hsum := congrArg ConsensusResult.summary heq
    simp only [ConsensusManager.security_veto_consensus, hfind] at hsum
    simp only [ConsensusManager.weighted_consensus,
      ConsensusManager.generate_summary, with_method, no_veto_demo,
      ConsensusMethod.value, ConsensusManager.vote_breakdown_list,
      ConsensusManager.confidence_scores_list, List.map_cons, List.map_nil,
      List.cons_append, List.nil_append] at hsum
    have hl := congrArg String.length hsum
    simp only [String.length_append] at hl
    rw [intercalate_length, intercalate_length] at hl
    simp only [List.map_cons, List.map_nil, List.sum_cons, List.sum_nil,
      String.length_append] at hl
    have dA : ("security_veto" : String).length = 13 := by decide
    have dB : ("weighted" : String).length = 8 := by decide
    rw [dA, dB] at hl
    omega

/-- Witness for C1 at the spec scenario-2 ledger: the SecurityAuditor
rejection at confidence 0.8 vetoes the two approvals. -/
theorem C1_witness :
    (with_method veto_demo .SECURITY_VETO).calculate_consensus.final_verdict
        = .REJECT ∧
    (with_method veto_demo .SECURITY_VETO).calculate_consensus.consensus_reached
        = true := by
  have h := (C1_security_veto veto_demo (by decide)).1
    ⟨{ agent_name := "SecurityAuditor", verdict := .REJECT,
       confidence := 4/5, role_weight := 3/2, rationale := "" },
      List.Mem.head _, rfl, rfl, by norm_num⟩
  exact ⟨h.1, h.2.1⟩

/-- The serialized verdict string parses back to the verdict. -/
theorem parse_verdict_value (u : ReviewVerdict) :
    parse_verdict u.value = some u := by
  cases u <;> rfl

/-- Parsing a serialized list element by element recovers the list. -/
theorem parse_items_map (p : Json → Option α) (f : α → Json)
    (h : ∀ x, p (f x) = some x) (l : List α) :
    parse_items p (l.map f) = some l := by
  induction l with
  | nil => rfl
  | cons a t ih => simp [parse_items, h, ih]

/-- Parsing serialized object fields value by value recovers them. -/
theorem parse_fields_map (p : Json → Option α) (f : α → Json)
    (h : ∀ x, p (f x) = some x) (l : List (String × α)) :
    parse_fields p (l.map (fun q => (q.1, f q.2))) = some l := by
  induction l with
  | nil => rfl
  | cons q t ih =>
    cases q
    simp [parse_fields, h, ih]

/-- A serialized string list parses back. -/
theorem parse_str_list_map (l : List String) :
    parse_str_list (Json.jarr (l.map Json.jstr)) = some l := by
  unfold parse_str_list
  exact parse_items_map Json.asStr Json.jstr (fun x => rfl) l

/-- A serialized message parses back to itself. -/
theorem parse_message_roundtrip (msg : ReviewMessage) :
    parse_message (message_to_dict msg) = some msg := by
  obtain ⟨agent, content, verdict, ts, reply⟩ := msg
  cases verdict with
  | none => cases reply <;> rfl
  | some u => cases u <;> cases reply <;> rfl

/-- A serialized analysis parses back to itself. -/
theorem parse_analysis_roundtrip (a : CodeAnalysis) :
    parse_analysis (analysis_to_dict a) = some a := by
  obtain ⟨issues, warns, poss, verdict, conf⟩ := a
  have h1 : (analysis_to_dict ⟨issues, warns, poss, verdict, conf⟩).get
      "issues" = some (Json.jarr (issues.map Json.jstr)) := rfl
  have h2 : (analysis_to_dict ⟨issues, warns, poss, verdict, conf⟩).get
      "warnings" = some (Json.jarr (warns.map Json.jstr)) := rfl
  have h3 : (analysis_to_dict ⟨issues, warns, poss, verdict, conf⟩).get
      "positives" = some (Json.jarr (poss.map Json.jstr)) := rfl
  simp only [parse_analysis, h1, h2, h3, Option.some_bind,
    parse_str_list_map]
  cases verdict <;> rfl

/-- A serialized vote breakdown parses back. -/
theorem parse_breakdown_map (l : List (String × ReviewVerdict)) :
    parse_breakdown (Json.jobj (l.map (fun p => (p.1, Json.jstr p.2.value))))
      = some l := by
  unfold parse_breakdown
  exact parse_fields_map (fun x => x.asStr.bind parse_verdict)
    (fun u => Json.jstr u.value) (fun x => by cases x <;> rfl) l

/-- Serialized confidence scores parse back. -/
theorem parse_scores_map (l : List (String × ℚ)) :
    parse_scores (Json.jobj (l.map (fun p => (p.1, Json.jnum p.2))))
      = some l := by
  unfold parse_scores
  exact parse_fields_map Json.asNum Json.jnum (fun x => rfl) l

/-- A serialized consensus result parses back to itself. -/
theorem parse_consensus_roundtrip (r : ConsensusResult) :
    parse_consensus_result (consensus_result_to_dict r) = some r := by
  obtain ⟨fv, cr, vb, cs, tc, rt, di, su⟩ := r
  have h1 : (consensus_result_to_dict ⟨fv, cr, vb, cs, tc, rt, di, su⟩).get
      "vote_breakdown" =
      some (Json.jobj (vb.map (fun p => (p.1, Json.jstr p.2.value)))) := rfl
  have h2 : (consensus_result_to_dict ⟨fv, cr, vb, cs, tc, rt, di, su⟩).get
      "confidence_scores" =
      some (Json.jobj (cs.map (fun p => (p.1, Json.jnum p.2)))) := rfl
  have h3 : (consensus_result_to_dict ⟨fv, cr, vb, cs, tc, rt, di, su⟩).get
      "dissenting_opinions" =
      some (Json.jarr (di.map Json.jstr)) := rfl
  simp only [parse_consensus_result, h1, h2, h3, Option.some_bind,
    parse_breakdown_map, parse_scores_map, parse_str_list_map]
  cases fv <;> rfl

/-- C9: serializing a sealed conversation log and reparsing the
serialization recovers the log exactly — same message sequence in order
with agents, contents, verdicts, timestamps and reply targets, same
analyses, and same consensus-result fields.  The JSON text layer
(`json.dumps`/`json.loads`, Python standard library) is a faithful
transport of the tree, so the round trip is settled on the tree. -/
theorem C9_roundtrip (log : ConversationLog)
    (h1 : log.ended_at.isSome) (h2 : log.consensus_result.isSome) :
    parse_log log.to_dict = some log := by
  obtain ⟨ch, fn, sa, ea, ms, an, cr⟩ := log
  obtain ⟨ea, rfl⟩ := Option.isSome_iff_exists.mp h1
  obtain ⟨cr, rfl⟩ := Option.isSome_iff_exists.mp h2
  have hms : (ConversationLog.to_dict
      ⟨ch, fn, sa, some ea, ms, an, some cr⟩).get "messages" =
      some (Json.jarr (ms.map message_to_dict)) := rfl
  have han : (ConversationLog.to_dict
      ⟨ch, fn, sa, some ea, ms, an, some cr⟩).get "analyses" =
      some (Json.jobj (an.map (fun p => (p.1, analysis_to_dict p.2)))) := rfl
  have hcr : (ConversationLog.to_dict
      ⟨ch, fn, sa, some ea, ms, an, some cr⟩).get "consensus_result" =
      some (consensus_result_to_dict cr) := rfl
  have hocr : parse_opt_consensus (consensus_result_to_dict cr) =
      some (some cr) := by
    have hshape : parse_opt_consensus (consensus_result_to_dict cr) =
        (parse_consensus_result (consensus_result_to_dict cr)).map some :=
      rfl
    rw [hshape, parse_consensus_roundtrip]
    rfl
  simp only [parse_log, hms, han, hcr, Option.some_bind, hocr,
    parse_items_map parse_message message_to_dict parse_message_roundtrip,
    parse_fields_map parse_analysis analysis_to_dict
      parse_analysis_roundtrip]
  rfl

/-- Witness for C9 at a concrete sealed three-message log. -/
theorem C9_witness :
    (sealed_log_demo.ended_at.isSome ∧
      sealed_log_demo.consensus_result.isSome) ∧
    parse_log sealed_log_demo.to_dict = some sealed_log_demo :=
  ⟨⟨rfl, rfl⟩, C9_roundtrip sealed_log_demo rfl rfl⟩
